import Mathlib

/-!
Verification development for the Explain-My-Repo analysis pipeline.

This file gives a shallow embedding, in Lean 4, of the code-metrics and
pattern-scanning pipeline of the repository: the file collector and line
classifier of `src/server/routes/analyze.js`, the `CodeParser` class of
`src/pages/analyze.tsx`, the `SecurityScanner.scanForSecrets` method, and
the `HistoryService` persistence layer.  JavaScript strings are modelled as
`String`/`List Char`, JavaScript numbers as `Nat`/`ℚ`, JavaScript regular
expressions as an explicit executable matcher (`RE`, `mrun`) that mirrors
ECMAScript semantics including the statefulness of `lastIndex` on regexes
built with the `g` flag, and `Math.random()` draws as rational parameters
in `[0, 1)`.
-/

namespace ExplainMyRepo

/-! ## Basic string utilities mirroring the JavaScript ones -/

/-- Whitespace set used by JavaScript `String.prototype.trim` and the regex
class `\s` (ASCII part plus NBSP and BOM). -/
def isJsWhitespace (c : Char) : Bool :=
  c = ' ' || c = '\t' || c = '\n' || c = '\r' || c = '\x0b' || c = '\x0c' ||
  c = ' ' || c = '﻿'

/-- Model of JavaScript `content.split('\n')`: splitting the empty string
yields `[""]`, and a trailing newline yields a trailing empty element. -/
def splitLines : List Char → List (List Char)
  | [] => [[]]
  | c :: cs =>
    if c = '\n' then [] :: splitLines cs
    else
      match splitLines cs with
      | [] => [[c]]
      | l :: ls => (c :: l) :: ls

/-- Model of JavaScript `line.trim()`. -/
def trimChars (cs : List Char) : List Char :=
  ((cs.dropWhile isJsWhitespace).reverse.dropWhile isJsWhitespace).reverse

theorem splitLines_ne_nil (cs : List Char) : splitLines cs ≠ [] := by
  induction cs with
  | nil => simp [splitLines]
  | cons c cs ih =>
    simp only [splitLines]
    split
    · simp
    · cases h : splitLines cs with
      | nil => simp
      | cons l ls => simp

theorem length_splitLines_pos (cs : List Char) : 1 ≤ (splitLines cs).length := by
  cases h : splitLines cs with
  | nil => exact absurd h (splitLines_ne_nil cs)
  | cons l ls => simp

/-! ## Line Classifier (`analyzeCodeMetrics` inner loop, analyze.js) -/

inductive LineClass where
  | code
  | comment
  | blank
deriving DecidableEq

/-- Embeds the per-line classification of `analyzeCodeMetrics`
(analyze.js): blank after trim, else comment when the trimmed line starts
with `//`, `#` or `/*`, else code. -/
def classifyLine (line : List Char) : LineClass :=
  let trimmed := trimChars line
  if trimmed = [] then .blank
  else if ['/', '/'].isPrefixOf trimmed || ['#'].isPrefixOf trimmed ||
      ['/', '*'].isPrefixOf trimmed then .comment
  else .code

structure LineStats where
  total : Nat
  codeL : Nat
  commentL : Nat
  blankL : Nat
deriving DecidableEq

/-- Embeds the per-file counting loop of `analyzeCodeMetrics`: split the
content on newlines, count each class of line. -/
def fileLineStats (content : String) : LineStats :=
  let lines := splitLines content.toList
  { total := lines.length
  , codeL := lines.countP (fun l => classifyLine l = .code)
  , commentL := lines.countP (fun l => classifyLine l = .comment)
  , blankL := lines.countP (fun l => classifyLine l = .blank) }

theorem countP_classify_partition (lines : List (List Char)) :
    lines.countP (fun l => classifyLine l = .code) +
      lines.countP (fun l => classifyLine l = .comment) +
      lines.countP (fun l => classifyLine l = .blank) = lines.length := by
  induction lines with
  | nil => simp
  | cons l ls ih =>
    simp only [List.countP_cons, List.length_cons]
    rcases h : classifyLine l <;> simp [h] <;> omega

theorem fileLineStats_partition (content : String) :
    (fileLineStats content).codeL + (fileLineStats content).commentL +
      (fileLineStats content).blankL = (fileLineStats content).total :=
  countP_classify_partition (splitLines content.toList)

/-! ## SourceFile and extension handling -/

/-- Record pushed by `collectFiles` (analyze.js): relative path, content,
size in bytes. -/
structure SourceFile where
  path : String
  content : String
  size : Nat
deriving DecidableEq

/-- Splits a character list on a separator character, JavaScript
`split(sep)` style (never returns the empty list). -/
def splitOnChar (sep : Char) : List Char → List (List Char)
  | [] => [[]]
  | c :: cs =>
    if c = sep then [] :: splitOnChar sep cs
    else
      match splitOnChar sep cs with
      | [] => [[c]]
      | l :: ls => (c :: l) :: ls

/-- Suffix of a character list starting at its last dot, when any. -/
def lastDotSuffix : List Char → Option (List Char)
  | [] => none
  | c :: cs =>
    match lastDotSuffix cs with
    | some e => some e
    | none => if c = '.' then some (c :: cs) else none

/-- Model of Node's `path.extname`: the extension of the last path
component, empty when the component has no dot past its first character. -/
def extname (p : String) : String :=
  let base := ((splitOnChar '/' p.toList).getLastD [])
  match base with
  | [] => ""
  | _ :: rest =>
    match lastDotSuffix rest with
    | some suf => String.mk suf
    | none => ""

/-- Extension-to-language table of `getLanguageFromExtension`
(analyze.js). -/
def languageMap : List (String × String) :=
  [(".js", "JavaScript"), (".ts", "TypeScript"), (".jsx", "JavaScript React"),
   (".tsx", "TypeScript React"), (".py", "Python"), (".java", "Java"),
   (".cpp", "C++"), (".cc", "C++"), (".cxx", "C++"), (".c", "C"),
   (".h", "C/C++ Header"), (".hpp", "C++ Header"), (".cs", "C#"),
   (".go", "Go"), (".rs", "Rust"), (".rb", "Ruby"), (".php", "PHP"),
   (".swift", "Swift"), (".kt", "Kotlin"), (".scala", "Scala"),
   (".r", "R"), (".m", "Objective-C")]

/-- Embeds `getLanguageFromExtension` (analyze.js): table lookup with
fallback `"Other"`. -/
def getLanguageFromExtension (ext : String) : String :=
  match languageMap.lookup ext with
  | some l => l
  | none => "Other"

/-! ## Language / file-type aggregation (`analyzeCodeMetrics`) -/

structure LanguageStat where
  language : String
  files : Nat
  lines : Nat
  bytes : Nat
  percentage : ℚ
deriving DecidableEq

structure FileTypeStat where
  extension : String
  count : Nat
  totalSize : Nat
  percentage : ℚ
deriving DecidableEq

structure CodeMetrics where
  totalFiles : Nat
  totalLines : Nat
  codeLines : Nat
  commentLines : Nat
  blankLines : Nat
  languages : List LanguageStat
  fileTypes : List FileTypeStat
  averageFileSize : ℚ

/-- Accumulator update for the `languageStats` Map of
`analyzeCodeMetrics`: bump the entry for `lang` (JavaScript `Map` keeps
insertion order, new keys are appended). Tuple fields: files, lines,
bytes. -/
def bumpLang (lang : String) (dLines dBytes : Nat) :
    List (String × Nat × Nat × Nat) → List (String × Nat × Nat × Nat)
  | [] => [(lang, 1, dLines, dBytes)]
  | (l, f, ln, b) :: rest =>
    if l = lang then (l, f + 1, ln + dLines, b + dBytes) :: rest
    else (l, f, ln, b) :: bumpLang lang dLines dBytes rest

/-- Accumulator update for the `fileTypeStats` Map of
`analyzeCodeMetrics`. Tuple fields: count, totalSize. -/
def bumpExt (ext : String) (dSize : Nat) :
    List (String × Nat × Nat) → List (String × Nat × Nat)
  | [] => [(ext, 1, dSize)]
  | (e, c, s) :: rest =>
    if e = ext then (e, c + 1, s + dSize) :: rest
    else (e, c, s) :: bumpExt ext dSize rest

/-- Stable insertion step for the descending sort
`languages.sort((a, b) => b.lines - a.lines)`. -/
def insertLangDesc (x : LanguageStat) : List LanguageStat → List LanguageStat
  | [] => [x]
  | y :: ys => if x.lines < y.lines then y :: insertLangDesc x ys else x :: y :: ys

def sortLangDesc : List LanguageStat → List LanguageStat
  | [] => []
  | x :: xs => insertLangDesc x (sortLangDesc xs)

/-- Stable insertion step for the descending sort
`fileTypes.sort((a, b) => b.totalSize - a.totalSize)`. -/
def insertTypeDesc (x : FileTypeStat) : List FileTypeStat → List FileTypeStat
  | [] => [x]
  | y :: ys => if x.totalSize < y.totalSize then y :: insertTypeDesc x ys else x :: y :: ys

def sortTypeDesc : List FileTypeStat → List FileTypeStat
  | [] => []
  | x :: xs => insertTypeDesc x (sortTypeDesc xs)

/-- Embeds `analyzeCodeMetrics` (analyze.js).  The single `forEach` loop
of the source accumulates, per file, the line-class counters, the
language map and the file-type map; that loop is rendered here as sums
and folds over the file list, which compute the same values in the same
order. -/
def analyzeCodeMetrics (files : List SourceFile) : CodeMetrics :=
  let totalLines := (files.map (fun f => (fileLineStats f.content).total)).sum
  let langAcc := files.foldl
    (fun m f => bumpLang (getLanguageFromExtension (extname f.path))
      (fileLineStats f.content).total f.size m) []
  let extAcc := files.foldl (fun m f => bumpExt (extname f.path) f.size m) []
  let totalBytes := (files.map (fun f => f.size)).sum
  { totalFiles := files.length
  , totalLines := totalLines
  , codeLines := (files.map (fun f => (fileLineStats f.content).codeL)).sum
  , commentLines := (files.map (fun f => (fileLineStats f.content).commentL)).sum
  , blankLines := (files.map (fun f => (fileLineStats f.content).blankL)).sum
  , languages := sortLangDesc (langAcc.map (fun e =>
      { language := e.1, files := e.2.1, lines := e.2.2.1, bytes := e.2.2.2
      , percentage := (e.2.2.1 : ℚ) / (totalLines : ℚ) * 100 }))
  , fileTypes := sortTypeDesc (extAcc.map (fun e =>
      { extension := e.1, count := e.2.1, totalSize := e.2.2
      , percentage := (e.2.2 : ℚ) / (totalBytes : ℚ) * 100 }))
  , averageFileSize := if files.length > 0 then (totalBytes : ℚ) / (files.length : ℚ) else 0 }

/-! ## Line counting of `CodeParser.getCodeMetrics` (analyze.tsx) -/

structure TsxCounts where
  codeLines : Nat
  commentLines : Nat
  blankLines : Nat
  inMultilineComment : Bool
deriving DecidableEq

/-- Embeds one iteration of the `this.lines.forEach` loop in
`CodeParser.getCodeMetrics` (analyze.tsx): blank after trim; a line whose
trimmed form starts with a block-comment opener sets the multiline flag
(cleared again when the line also ends with the closer) and counts as
comment; inside a multiline comment every line counts as comment and the
flag is cleared on a closing line; `//` lines are comments; the rest is
code. -/
def CodeParser.metricsStep (s : TsxCounts) (line : List Char) : TsxCounts :=
  let trimmed := trimChars line
  if trimmed = [] then { s with blankLines := s.blankLines + 1 }
  else if ['/', '*'].isPrefixOf trimmed || ['/', '*', '*'].isPrefixOf trimmed then
    { s with commentLines := s.commentLines + 1
           , inMultilineComment := !(['*', '/'].isSuffixOf trimmed) }
  else if s.inMultilineComment then
    { s with commentLines := s.commentLines + 1
           , inMultilineComment := !(['*', '/'].isSuffixOf trimmed) }
  else if ['/', '/'].isPrefixOf trimmed then
    { s with commentLines := s.commentLines + 1 }
  else { s with codeLines := s.codeLines + 1 }

/-- Embeds the counter part of `CodeParser.getCodeMetrics` (analyze.tsx):
fold the per-line step over `content.split('\n')` starting from zeroed
counters with the multiline flag down. -/
def CodeParser.getCodeMetricsCounts (content : String) : TsxCounts :=
  (splitLines content.toList).foldl CodeParser.metricsStep ⟨0, 0, 0, false⟩

/-- Embeds `totalLines` of `CodeParser.getCodeMetrics`:
`this.lines.length`. -/
def CodeParser.totalLines (content : String) : Nat :=
  (splitLines content.toList).length

theorem metricsStep_sum (s : TsxCounts) (line : List Char) :
    (CodeParser.metricsStep s line).codeLines +
      (CodeParser.metricsStep s line).commentLines +
      (CodeParser.metricsStep s line).blankLines =
      s.codeLines + s.commentLines + s.blankLines + 1 := by
  unfold CodeParser.metricsStep
  by_cases h1 : trimChars line = [] <;>
    by_cases h2 : (['/', '*'].isPrefixOf (trimChars line) ||
      ['/', '*', '*'].isPrefixOf (trimChars line)) = true <;>
    by_cases h3 : s.inMultilineComment = true <;>
    by_cases h4 : ['/', '/'].isPrefixOf (trimChars line) = true <;>
    simp [h1, h2, h3, h4] <;> omega

theorem foldl_metricsStep_sum (lines : List (List Char)) (s : TsxCounts) :
    (lines.foldl CodeParser.metricsStep s).codeLines +
      (lines.foldl CodeParser.metricsStep s).commentLines +
      (lines.foldl CodeParser.metricsStep s).blankLines =
      s.codeLines + s.commentLines + s.blankLines + lines.length := by
  induction lines generalizing s with
  | nil => simp
  | cons l ls ih =>
    simp only [List.foldl_cons, List.length_cons]
    rw [ih, metricsStep_sum]
    omega

/-! ## Aggregate partition lemmas for `analyzeCodeMetrics` -/

theorem analyzeCodeMetrics_partition (files : List SourceFile) :
    (analyzeCodeMetrics files).codeLines + (analyzeCodeMetrics files).commentLines +
      (analyzeCodeMetrics files).blankLines = (analyzeCodeMetrics files).totalLines := by
  show (files.map _).sum + (files.map _).sum + (files.map _).sum = (files.map _).sum
  induction files with
  | nil => simp
  | cons f fs ih =>
    simp only [List.map_cons, List.sum_cons]
    have h := fileLineStats_partition f.content
    omega

/-! ## Percentage bookkeeping for the language table -/

/-- Total of the `lines` component over a language accumulator. -/
def accLinesSum (m : List (String × Nat × Nat × Nat)) : Nat :=
  (m.map (fun e => e.2.2.1)).sum

theorem accLinesSum_bumpLang (lang : String) (d b : Nat)
    (m : List (String × Nat × Nat × Nat)) :
    accLinesSum (bumpLang lang d b m) = accLinesSum m + d := by
  induction m with
  | nil => simp [bumpLang, accLinesSum]
  | cons e rest ih =>
    obtain ⟨l, f, ln, bb⟩ := e
    by_cases h : l = lang <;> simp [bumpLang, accLinesSum, h] <;>
      simp [accLinesSum] at ih <;> omega

theorem accLinesSum_foldl (files : List SourceFile)
    (m : List (String × Nat × Nat × Nat)) :
    accLinesSum (files.foldl
      (fun m f => bumpLang (getLanguageFromExtension (extname f.path))
        (fileLineStats f.content).total f.size m) m) =
      accLinesSum m + (files.map (fun f => (fileLineStats f.content).total)).sum := by
  induction files generalizing m with
  | nil => simp
  | cons f fs ih =>
    simp only [List.foldl_cons, List.map_cons, List.sum_cons]
    rw [ih, accLinesSum_bumpLang]
    omega

theorem percSum_insertLangDesc (x : LanguageStat) (l : List LanguageStat) :
    ((insertLangDesc x l).map LanguageStat.percentage).sum =
      x.percentage + (l.map LanguageStat.percentage).sum := by
  induction l with
  | nil => simp [insertLangDesc]
  | cons y ys ih =>
    by_cases h : x.lines < y.lines <;> simp [insertLangDesc, h, ih] <;> try ring

theorem percSum_sortLangDesc (l : List LanguageStat) :
    ((sortLangDesc l).map LanguageStat.percentage).sum =
      (l.map LanguageStat.percentage).sum := by
  induction l with
  | nil => rfl
  | cons x xs ih => simp [sortLangDesc, percSum_insertLangDesc, ih]

theorem percSum_accMap (T : Nat) (m : List (String × Nat × Nat × Nat)) :
    ((m.map (fun e => (⟨e.1, e.2.1, e.2.2.1, e.2.2.2,
        (e.2.2.1 : ℚ) / (T : ℚ) * 100⟩ : LanguageStat))).map
      LanguageStat.percentage).sum = (accLinesSum m : ℚ) / (T : ℚ) * 100 := by
  induction m with
  | nil => simp [accLinesSum]
  | cons e rest ih =>
    simp only [List.map_cons, List.sum_cons, ih, accLinesSum, Nat.cast_add]
    push_cast
    ring

theorem totalLines_pos (f : SourceFile) (fs : List SourceFile) :
    1 ≤ ((f :: fs).map (fun g => (fileLineStats g.content).total)).sum := by
  simp only [List.map_cons, List.sum_cons]
  have := length_splitLines_pos f.content.toList
  have : 1 ≤ (fileLineStats f.content).total := this
  omega

/-- C1: for every list of source files, the line classification satisfies
codeLines + commentLines + blankLines = totalLines — per file (both for the
inner counters of `analyzeCodeMetrics` and for `CodeParser.getCodeMetrics`)
and for the project-level aggregate. -/
theorem claim_C1_line_class_partition :
    (∀ content : String,
      (fileLineStats content).codeL + (fileLineStats content).commentL +
        (fileLineStats content).blankL = (fileLineStats content).total) ∧
    (∀ files : List SourceFile,
      (analyzeCodeMetrics files).codeLines + (analyzeCodeMetrics files).commentLines +
        (analyzeCodeMetrics files).blankLines = (analyzeCodeMetrics files).totalLines) ∧
    (∀ content : String,
      (CodeParser.getCodeMetricsCounts content).codeLines +
        (CodeParser.getCodeMetricsCounts content).commentLines +
        (CodeParser.getCodeMetricsCounts content).blankLines =
        CodeParser.totalLines content) :=
  ⟨fileLineStats_partition, analyzeCodeMetrics_partition, fun content => by
    simpa [CodeParser.getCodeMetricsCounts, CodeParser.totalLines] using
      foldl_metricsStep_sum (splitLines content.toList) ⟨0, 0, 0, false⟩⟩

/-- C8: for every non-empty project, the percentages over the language
entries returned by `analyzeCodeMetrics` sum to exactly 100 (the rational
model is exact where the JavaScript floats carry rounding error). -/
theorem claim_C8_language_percentage_sum (files : List SourceFile)
    (h : files ≠ []) :
    (((analyzeCodeMetrics files).languages).map LanguageStat.percentage).sum = 100 := by
  obtain ⟨f, fs, rfl⟩ := List.exists_cons_of_ne_nil h
  have hT : 1 ≤ ((f :: fs).map (fun g => (fileLineStats g.content).total)).sum :=
    totalLines_pos f fs
  have hne : (((f :: fs).map (fun g => (fileLineStats g.content).total)).sum : ℚ) ≠ 0 :=
    Nat.cast_ne_zero.mpr (by omega)
  simp only [analyzeCodeMetrics]
  rw [percSum_sortLangDesc, percSum_accMap, accLinesSum_foldl]
  simp only [accLinesSum, List.map_nil, List.sum_nil, Nat.zero_add]
  rw [div_self hne]
  norm_num

/-- Witness for C8 at the one-file project `[⟨"a.js", "x", 1⟩]`. -/
theorem claim_C8_language_percentage_sum_witness :
    ([(⟨"a.js", "x", 1⟩ : SourceFile)] : List SourceFile) ≠ [] ∧
      (((analyzeCodeMetrics [(⟨"a.js", "x", 1⟩ : SourceFile)]).languages).map
        LanguageStat.percentage).sum = 100 :=
  ⟨by simp, claim_C8_language_percentage_sum [⟨"a.js", "x", 1⟩] (by simp)⟩

theorem fileLineStats_empty : fileLineStats "" = ⟨1, 0, 0, 1⟩ := by decide

/-- C9: a 0-byte file is counted by `analyzeCodeMetrics` as exactly one
line, classified blank: appending such a file raises totalLines and
blankLines by one and leaves codeLines and commentLines unchanged; and no
file ever contributes zero lines. -/
theorem claim_C9_empty_file_counts_one_blank_line :
    fileLineStats "" = ⟨1, 0, 0, 1⟩ ∧
    (∀ (files : List SourceFile) (f : SourceFile), f.content = "" →
      (analyzeCodeMetrics (files ++ [f])).totalLines =
        (analyzeCodeMetrics files).totalLines + 1 ∧
      (analyzeCodeMetrics (files ++ [f])).blankLines =
        (analyzeCodeMetrics files).blankLines + 1 ∧
      (analyzeCodeMetrics (files ++ [f])).codeLines =
        (analyzeCodeMetrics files).codeLines ∧
      (analyzeCodeMetrics (files ++ [f])).commentLines =
        (analyzeCodeMetrics files).commentLines) ∧
    (∀ content : String, 1 ≤ (fileLineStats content).total) := by
  refine ⟨fileLineStats_empty, fun files f h => ?_, fun content =>
    length_splitLines_pos content.toList⟩
  refine ⟨?_, ?_, ?_, ?_⟩ <;>
    simp [analyzeCodeMetrics, h, fileLineStats_empty]

/-- Witness for C9 at the concrete project `["a.js"]` plus a 0-byte
`"b.py"`. -/
theorem claim_C9_empty_file_counts_one_blank_line_witness :
    (analyzeCodeMetrics ([(⟨"a.js", "x", 1⟩ : SourceFile)] ++
        [(⟨"b.py", "", 0⟩ : SourceFile)])).totalLines =
      (analyzeCodeMetrics [(⟨"a.js", "x", 1⟩ : SourceFile)]).totalLines + 1 ∧
    (analyzeCodeMetrics ([(⟨"a.js", "x", 1⟩ : SourceFile)] ++
        [(⟨"b.py", "", 0⟩ : SourceFile)])).blankLines =
      (analyzeCodeMetrics [(⟨"a.js", "x", 1⟩ : SourceFile)]).blankLines + 1 ∧
    (analyzeCodeMetrics ([(⟨"a.js", "x", 1⟩ : SourceFile)] ++
        [(⟨"b.py", "", 0⟩ : SourceFile)])).codeLines =
      (analyzeCodeMetrics [(⟨"a.js", "x", 1⟩ : SourceFile)]).codeLines ∧
    (analyzeCodeMetrics ([(⟨"a.js", "x", 1⟩ : SourceFile)] ++
        [(⟨"b.py", "", 0⟩ : SourceFile)])).commentLines =
      (analyzeCodeMetrics [(⟨"a.js", "x", 1⟩ : SourceFile)]).commentLines :=
  claim_C9_empty_file_counts_one_blank_line.2.1 [⟨"a.js", "x", 1⟩] ⟨"b.py", "", 0⟩ rfl

/-! ## Executable model of the JavaScript regexes used by the pipeline

The patterns used by `CodeParser.calculateComplexity` and
`SecurityScanner.scanForSecrets` only ever apply quantifiers to
single-character classes or to one optional group, so they are modelled
by a small syntax `RE` with an executable backtracking matcher whose
priority order (leftmost match, greedy quantifiers, left-biased
alternation) follows ECMAScript. -/

inductive RE where
  | eps : RE
  | lit : List Char → Bool → RE
  | cls : (Char → Bool) → Nat → Option Nat → RE
  | wb : RE
  | cat : RE → RE → RE
  | alt : RE → RE → RE
  | opt : RE → RE

/-- Word character of the regex `\b` assertion: `[A-Za-z0-9_]`. -/
def isWordChar (c : Char) : Bool :=
  c.isAlpha || c.isDigit || c = '_'

def isWordOpt : Option Char → Bool
  | some c => isWordChar c
  | none => false

def headIsWord : List Char → Bool
  | c :: _ => isWordChar c
  | [] => false

/-- Single-character comparison, case-insensitively when the regex has the
`i` flag. -/
def charMatches (ci : Bool) (pc c : Char) : Bool :=
  if ci then pc.toLower == c.toLower else pc == c

/-- Matches a literal character sequence, returning the last consumed
character and the rest of the input. -/
def litRun (ci : Bool) : List Char → Option Char → List Char →
    Option (Option Char × List Char)
  | [], p, s => some (p, s)
  | _ :: _, _, [] => none
  | pc :: pcs, _, c :: cs =>
    if charMatches ci pc c then litRun ci pcs (some c) cs else none

/-- Length of the maximal run of leading characters in the class. -/
def leadRun (q : Char → Bool) (s : List Char) : Nat :=
  (s.takeWhile q).length

def prevAfter (p0 : Option Char) (s : List Char) (n : Nat) : Option Char :=
  if n = 0 then p0 else s[n - 1]?

/-- Greedy backtracking over the repetition count of a character class:
try consuming `n` characters first, then fewer, never fewer than `lo`. -/
def clsTry {β : Type} (p0 : Option Char) (s : List Char)
    (k : Option Char → List Char → Option β) (lo : Nat) : Nat → Option β
  | 0 => if lo = 0 then k p0 s else none
  | n + 1 =>
    if n + 1 < lo then none
    else
      match k (prevAfter p0 s (n + 1)) (s.drop (n + 1)) with
      | some r => some r
      | none => clsTry p0 s k lo n

def capRun (q : Char → Bool) (s : List Char) : Option Nat → Nat
  | some h => min (leadRun q s) h
  | none => leadRun q s

/-- Backtracking matcher in continuation style: `p` is the character just
before the current position (for `\b`), `k` receives the updated previous
character and the remaining input of each candidate match, in ECMAScript
priority order. -/
def mrun {β : Type} : RE → Option Char → List Char →
    (Option Char → List Char → Option β) → Option β
  | .eps, p, s, k => k p s
  | .wb, p, s, k => if isWordOpt p = headIsWord s then none else k p s
  | .lit cs ci, p, s, k =>
    match litRun ci cs p s with
    | some r => k r.1 r.2
    | none => none
  | .cls q lo hi, p, s, k => clsTry p s k lo (capRun q s hi)
  | .cat a b, p, s, k => mrun a p s (fun p2 s2 => mrun b p2 s2 k)
  | .alt a b, p, s, k =>
    match mrun a p s k with
    | some r => some r
    | none => mrun b p s k
  | .opt a, p, s, k =>
    match mrun a p s k with
    | some r => some r
    | none => k p s

/-- Leftmost match search; returns the state just after the match end. -/
def searchStep (re : RE) : Option Char → List Char →
    Option (Option Char × List Char)
  | p, s =>
    match mrun re p s (fun p2 s2 => some (p2, s2)) with
    | some r => some r
    | none =>
      match s with
      | [] => none
      | c :: cs => searchStep re (some c) cs

/-- Leftmost match search reporting the absolute match end position. -/
def searchEndFrom (re : RE) : Option Char → List Char → Nat → Option Nat
  | p, s, pos =>
    match mrun re p s (fun _ s2 => some (s.length - s2.length)) with
    | some consumed => some (pos + consumed)
    | none =>
      match s with
      | [] => none
      | c :: cs => searchEndFrom re (some c) cs (pos + 1)

/-- Model of `regex.test(line)` for a regex created with the `g` flag:
the search starts at the regex's `lastIndex`; on success `lastIndex`
becomes the match end, on failure it resets to 0 (ECMAScript
`RegExpBuiltinExec`). -/
def jsTest (re : RE) (line : List Char) (lastIndex : Nat) : Bool × Nat :=
  if lastIndex > line.length then (false, 0)
  else
    match searchEndFrom re (prevAfter none line lastIndex)
        (line.drop lastIndex) lastIndex with
    | some e => (true, e)
    | none => (false, 0)

/-- Number of matches of `string.match(regex)` for a `g` regex: repeated
leftmost search, continuing after each match end (the fuelled recursion
only guards the — here unreachable — empty-match case, where ECMAScript
advances by one character). -/
def countFrom (re : RE) : Nat → Option Char → List Char → Nat
  | 0, _, _ => 0
  | fuel + 1, p, s =>
    match searchStep re p s with
    | none => 0
    | some (p2, rest) =>
      if rest.length < s.length then 1 + countFrom re fuel p2 rest
      else
        1 + (match rest with
             | [] => 0
             | c :: cs => countFrom re fuel (some c) cs)

def countMatches (re : RE) (s : String) : Nat :=
  countFrom re (s.toList.length + 1) none s.toList

/-! ## Complexity Estimator (`CodeParser.calculateComplexity`, analyze.tsx) -/

/-- Keyword pattern `\b<word>\b` (no `i` flag on the complexity regexes). -/
def kwRE (w : String) : RE :=
  .cat .wb (.cat (.lit w.toList false) .wb)

/-- Pattern `\belse\s+if\b`. -/
def elseIfRE : RE :=
  .cat .wb (.cat (.lit "else".toList false)
    (.cat (.cls isJsWhitespace 1 none) (.cat (.lit "if".toList false) .wb)))

/-- Pattern `\?\s*:`. -/
def ternaryRE : RE :=
  .cat (.lit "?".toList false) (.cat (.cls isJsWhitespace 0 none) (.lit ":".toList false))

/-- The twelve `complexityPatterns` of `CodeParser.calculateComplexity`
(analyze.tsx), in source order: `\bif\b`, `\belse\s+if\b`, `\belse\b`,
`\bfor\b`, `\bwhile\b`, `\bdo\b`, `\bswitch\b`, `\bcase\b`, `\bcatch\b`,
`\?\s*:`, `&&`, `\|\|`. -/
def complexityPatterns : List RE :=
  [kwRE "if", elseIfRE, kwRE "else", kwRE "for", kwRE "while", kwRE "do",
   kwRE "switch", kwRE "case", kwRE "catch", ternaryRE,
   .lit "&&".toList false, .lit "||".toList false]

/-- Embeds `CodeParser.calculateComplexity` (analyze.tsx): start at 1 and
add the number of matches of each pattern over the whole text. -/
def CodeParser.calculateComplexity (code : String) : Nat :=
  1 + (complexityPatterns.map (fun re => countMatches re code)).sum

/-- Counterexample for C5: on `if (a) { } else if (b) { }\n` the
Complexity Estimator does not yield 4 as claimed. -/
theorem claim_C5_counterexample :
    CodeParser.calculateComplexity "if (a) \x7b \x7d else if (b) \x7b \x7d\n" ≠ 4 := by
  decide

/-- C5 (amended): on `if (a) { } else if (b) { }\n` the Complexity
Estimator yields 5, not 4: the pattern set also contains `\belse\s+if\b`,
so `else if` is counted a third time; the contributing matches are
`if` twice, `else if` once and `else` once, over the floor of 1. -/
theorem claim_C5_else_if_complexity :
    CodeParser.calculateComplexity "if (a) \x7b \x7d else if (b) \x7b \x7d\n" = 5 ∧
    countMatches (kwRE "if") "if (a) \x7b \x7d else if (b) \x7b \x7d\n" = 2 ∧
    countMatches elseIfRE "if (a) \x7b \x7d else if (b) \x7b \x7d\n" = 1 ∧
    countMatches (kwRE "else") "if (a) \x7b \x7d else if (b) \x7b \x7d\n" = 1 := by
  refine ⟨by decide, by decide, by decide, by decide⟩

/-! ## Secret Scanner (`SecurityScanner.scanForSecrets`, src/unnamed/part_000)

All 13 secret regexes carry the `gi` flags: literals compare
case-insensitively and, under ECMAScript canonicalisation, the character
ranges `[0-9A-Z]` and `[a-zA-Z0-9_\-]` match letters of either case. -/

def clsDigitUpperCI (c : Char) : Bool := c.isDigit || c.isAlpha

def clsNotQuote (c : Char) : Bool := !(c == '\'' || c == '"')

def clsQuote (c : Char) : Bool := c == '\'' || c == '"'

def clsKeyChars (c : Char) : Bool := c.isAlpha || c.isDigit || c == '_' || c == '-'

def clsColonEq (c : Char) : Bool := c == ':' || c == '='

def clsUnderscoreDash (c : Char) : Bool := c == '_' || c == '-'

def clsPS (c : Char) : Bool := c == 'p' || c == 's' || c == 'P' || c == 'S'

def clsAlnum (c : Char) : Bool := c.isAlpha || c.isDigit

def clsBAPRS (c : Char) : Bool :=
  c == 'b' || c == 'a' || c == 'p' || c == 'r' || c == 's' ||
  c == 'B' || c == 'A' || c == 'P' || c == 'R' || c == 'S'

/-- Pattern `AKIA[0-9A-Z]{16}`. -/
def awsAccessKeyRE : RE := .cat (.lit "AKIA".toList true) (.cls clsDigitUpperCI 16 (some 16))

/-- Pattern `aws_secret_access_key\s*=\s*['"][^'"]{40}['"]`. -/
def awsSecretKeyRE : RE :=
  .cat (.lit "aws_secret_access_key".toList true)
  (.cat (.cls isJsWhitespace 0 none) (.cat (.lit "=".toList true)
  (.cat (.cls isJsWhitespace 0 none) (.cat (.cls clsQuote 1 (some 1))
  (.cat (.cls clsNotQuote 40 (some 40)) (.cls clsQuote 1 (some 1)))))))

/-- Pattern `api[_-]?key\s*[:=]\s*['"][a-zA-Z0-9_\-]{20,}['"]`. -/
def genericApiKeyRE : RE :=
  .cat (.lit "api".toList true)
  (.cat (.cls clsUnderscoreDash 0 (some 1)) (.cat (.lit "key".toList true)
  (.cat (.cls isJsWhitespace 0 none) (.cat (.cls clsColonEq 1 (some 1))
  (.cat (.cls isJsWhitespace 0 none) (.cat (.cls clsQuote 1 (some 1))
  (.cat (.cls clsKeyChars 20 none) (.cls clsQuote 1 (some 1)))))))))

/-- Pattern `secret\s*[:=]\s*['"][a-zA-Z0-9_\-]{20,}['"]`. -/
def genericSecretRE : RE :=
  .cat (.lit "secret".toList true)
  (.cat (.cls isJsWhitespace 0 none) (.cat (.cls clsColonEq 1 (some 1))
  (.cat (.cls isJsWhitespace 0 none) (.cat (.cls clsQuote 1 (some 1))
  (.cat (.cls clsKeyChars 20 none) (.cls clsQuote 1 (some 1)))))))

/-- Pattern `-----BEGIN\s+(?:RSA\s+)?PRIVATE\s+KEY-----`. -/
def privateKeyRE : RE :=
  .cat (.lit "-----BEGIN".toList true)
  (.cat (.cls isJsWhitespace 1 none)
  (.cat (.opt (.cat (.lit "RSA".toList true) (.cls isJsWhitespace 1 none)))
  (.cat (.lit "PRIVATE".toList true)
  (.cat (.cls isJsWhitespace 1 none) (.lit "KEY-----".toList true)))))

/-- Pattern `gh[ps]_[a-zA-Z0-9]{36,}`. -/
def githubTokenRE : RE :=
  .cat (.lit "gh".toList true)
  (.cat (.cls clsPS 1 (some 1)) (.cat (.lit "_".toList true) (.cls clsAlnum 36 none)))

/-- Pattern `gho_[a-zA-Z0-9]{36,}`. -/
def githubOAuthRE : RE := .cat (.lit "gho_".toList true) (.cls clsAlnum 36 none)

/-- Pattern `eyJ[a-zA-Z0-9_-]*\.eyJ[a-zA-Z0-9_-]*\.[a-zA-Z0-9_-]*`. -/
def jwtRE : RE :=
  .cat (.lit "eyJ".toList true)
  (.cat (.cls clsKeyChars 0 none) (.cat (.lit ".".toList true)
  (.cat (.lit "eyJ".toList true) (.cat (.cls clsKeyChars 0 none)
  (.cat (.lit ".".toList true) (.cls clsKeyChars 0 none))))))

/-- Pattern `xox[baprs]-[0-9a-zA-Z]{10,48}`. -/
def slackTokenRE : RE :=
  .cat (.lit "xox".toList true)
  (.cat (.cls clsBAPRS 1 (some 1)) (.cat (.lit "-".toList true)
  (.cls clsAlnum 10 (some 48))))

/-- Pattern `AIza[0-9A-Za-z_-]{35}`. -/
def googleApiKeyRE : RE := .cat (.lit "AIza".toList true) (.cls clsKeyChars 35 (some 35))

/-- Pattern `sk_live_[0-9a-zA-Z]{24,}`. -/
def stripeKeyRE : RE := .cat (.lit "sk_live_".toList true) (.cls clsAlnum 24 none)

/-- Pattern `password\s*[:=]\s*['"][^'"]{6,}['"]`. -/
def passwordRE : RE :=
  .cat (.lit "password".toList true)
  (.cat (.cls isJsWhitespace 0 none) (.cat (.cls clsColonEq 1 (some 1))
  (.cat (.cls isJsWhitespace 0 none) (.cat (.cls clsQuote 1 (some 1))
  (.cat (.cls clsNotQuote 6 none) (.cls clsQuote 1 (some 1)))))))

/-- Pattern `(?:mongodb|mysql|postgresql):\/\/[^'"]+`. -/
def dbConnStringRE : RE :=
  .cat (.alt (.lit "mongodb".toList true)
    (.alt (.lit "mysql".toList true) (.lit "postgresql".toList true)))
  (.cat (.lit "://".toList true) (.cls clsNotQuote 1 none))

structure SecretPattern where
  name : String
  re : RE
  severity : String
  description : String

/-- The `secretPatterns` array of `SecurityScanner.scanForSecrets`, in
source order with the source severities and descriptions. -/
def secretPatterns : List SecretPattern :=
  [⟨"AWS Access Key", awsAccessKeyRE, "critical", "AWS access key detected"⟩,
   ⟨"AWS Secret Key", awsSecretKeyRE, "critical", "AWS secret access key detected"⟩,
   ⟨"Generic API Key", genericApiKeyRE, "high", "Generic API key detected"⟩,
   ⟨"Generic Secret", genericSecretRE, "high", "Generic secret detected"⟩,
   ⟨"Private Key", privateKeyRE, "critical", "Private key detected"⟩,
   ⟨"GitHub Token", githubTokenRE, "critical", "GitHub personal access token detected"⟩,
   ⟨"GitHub OAuth Token", githubOAuthRE, "critical", "GitHub OAuth token detected"⟩,
   ⟨"JWT Token", jwtRE, "high", "JWT token detected"⟩,
   ⟨"Slack Token", slackTokenRE, "high", "Slack token detected"⟩,
   ⟨"Google API Key", googleApiKeyRE, "high", "Google API key detected"⟩,
   ⟨"Stripe API Key", stripeKeyRE, "critical", "Stripe live API key detected"⟩,
   ⟨"Password in Code", passwordRE, "medium", "Hardcoded password detected"⟩,
   ⟨"Database Connection String", dbConnStringRE, "high", "Database connection string detected"⟩]

structure SecretDetection where
  type : String
  file : String
  line : Nat
  severity : String
  description : String
deriving DecidableEq

/-- Runs every pattern, in order, against one line: each regex keeps its
own `lastIndex` (the `Nat` paired with it), exactly as the JavaScript
regex objects do across the `forEach` loops of `scanForSecrets`. -/
def scanPatternsLine (filePath : String) (lineNum : Nat) (line : List Char) :
    List (SecretPattern × Nat) → List (SecretPattern × Nat) × List SecretDetection
  | [] => ([], [])
  | (q, li) :: rest =>
    let r := jsTest q.re line li
    let rr := scanPatternsLine filePath lineNum line rest
    ((q, r.2) :: rr.1,
     (if r.1 then
        [{ type := q.name, file := filePath, line := lineNum,
           severity := q.severity, description := q.description }]
      else []) ++ rr.2)

/-- Scans the lines of one file (1-based line numbers), threading the
per-pattern `lastIndex` state. -/
def scanLinesGo (filePath : String) :
    List (SecretPattern × Nat) → List SecretDetection → Nat → List (List Char) →
    List (SecretPattern × Nat) × List SecretDetection
  | st, acc, _, [] => (st, acc)
  | st, acc, idx, l :: ls =>
    let r := scanPatternsLine filePath (idx + 1) l st
    scanLinesGo filePath r.1 (acc ++ r.2) (idx + 1) ls

/-- Scans a list of files in order; the regex state persists from one
file to the next within the pass, as in the source, where the same 13
regex objects are reused for every file of one `scanForSecrets` call. -/
def scanFilesGo :
    List (SecretPattern × Nat) → List SecretDetection → List SourceFile →
    List SecretDetection
  | _, acc, [] => acc
  | st, acc, f :: fs =>
    let r := scanLinesGo f.path st acc 0 (splitLines f.content.toList)
    scanFilesGo r.1 r.2 fs

/-- Embeds `SecurityScanner.scanForSecrets` (src/unnamed/part_000): the
pattern array is created afresh on each call, so every pattern starts
with `lastIndex = 0`. -/
def SecurityScanner.scanForSecrets (files : List SourceFile) : List SecretDetection :=
  scanFilesGo (secretPatterns.map (fun q => (q, 0))) [] files

/-- Counterexample for C2: scanning file `a.js` then `b.js`, both holding
the single line `AKIA1234567890ABCDEF`, in one pass is not the union of
scanning each alone — the match in `a.js` moves the AWS regex's
`lastIndex` to 20, past the end of the identical line of `b.js`, whose
finding is therefore dropped. -/
theorem claim_C2_counterexample :
    SecurityScanner.scanForSecrets
      [⟨"a.js", "AKIA1234567890ABCDEF", 20⟩, ⟨"b.js", "AKIA1234567890ABCDEF", 20⟩] ≠
    SecurityScanner.scanForSecrets [⟨"a.js", "AKIA1234567890ABCDEF", 20⟩] ++
      SecurityScanner.scanForSecrets [⟨"b.js", "AKIA1234567890ABCDEF", 20⟩] := by
  decide

/-- C2 (amended): each `scanForSecrets` call is deterministic and starts
from fresh regex state (the pattern array is rebuilt per call, so
scanning identical content twice gives identical findings), but within
one pass the `g`-flag regexes keep their `lastIndex` across lines and
files, so a pass over two files is not the union of the single-file
scans: concretely, scanning `a.js` then `b.js` above yields only the
`a.js` finding, while each file alone yields its own finding. -/
theorem claim_C2_scan_state_dependence :
    SecurityScanner.scanForSecrets
      [⟨"a.js", "AKIA1234567890ABCDEF", 20⟩, ⟨"b.js", "AKIA1234567890ABCDEF", 20⟩] =
      [⟨"AWS Access Key", "a.js", 1, "critical", "AWS access key detected"⟩] ∧
    SecurityScanner.scanForSecrets [⟨"a.js", "AKIA1234567890ABCDEF", 20⟩] =
      [⟨"AWS Access Key", "a.js", 1, "critical", "AWS access key detected"⟩] ∧
    SecurityScanner.scanForSecrets [⟨"b.js", "AKIA1234567890ABCDEF", 20⟩] =
      [⟨"AWS Access Key", "b.js", 1, "critical", "AWS access key detected"⟩] := by
  refine ⟨by decide, by decide, by decide⟩

/-- Counterexample for C6: the line
`const apiKey = "AKIA1234567890ABCDEF1234"` does not produce exactly one
finding. -/
theorem claim_C6_counterexample :
    (SecurityScanner.scanForSecrets
      [⟨"config.js", "const apiKey = \"AKIA1234567890ABCDEF1234\"", 42⟩]).length ≠ 1 := by
  decide

/-- C6 (amended): scanning the single line
`const apiKey = "AKIA1234567890ABCDEF1234"` produces exactly two
findings, in pattern order: an "AWS Access Key" finding with severity
critical, and a "Generic API Key" finding with severity high — the
generic `api[_-]?key\s*[:=]\s*['"]...` pattern also matches the line and
the scanner does not deduplicate. -/
theorem claim_C6_two_findings :
    SecurityScanner.scanForSecrets
      [⟨"config.js", "const apiKey = \"AKIA1234567890ABCDEF1234\"", 42⟩] =
    [⟨"AWS Access Key", "config.js", 1, "critical", "AWS access key detected"⟩,
     ⟨"Generic API Key", "config.js", 1, "high", "Generic API key detected"⟩] := by
  decide

/-! ## Complexity block of the analyze route (analyze.js / part_012) -/

structure ComplexityBlock where
  averageComplexity : ℚ
  maxComplexity : ℚ
  complexFiles : List (String × ℚ)
  maintainabilityIndex : ℚ
deriving DecidableEq

/-- Embeds the `complexity` object built inline in the analyze route
(analyze.js lines 386–391 and src/unnamed/part_012 lines 658–663):
`averageComplexity: 5 + Math.random() * 10`,
`maxComplexity: 20 + Math.random() * 30`, `complexFiles: []`,
`maintainabilityIndex: 60 + Math.random() * 30`.  The three independent
`Math.random()` draws are modelled as rational parameters in `[0, 1)`;
no formula involving Halstead volume, complexity or line counts appears
anywhere in the source. -/
def analysisComplexityBlock (r1 r2 r3 : ℚ) : ComplexityBlock :=
  { averageComplexity := 5 + r1 * 10
  , maxComplexity := 20 + r2 * 30
  , complexFiles := []
  , maintainabilityIndex := 60 + r3 * 30 }

/-- Counterexample for C4: on one and the same analysis input the
reported maintainabilityIndex takes the value 60 under one random draw
and 75 under another, so it equals no function of volume, complexity and
lines — in particular not the claimed formula. -/
theorem claim_C4_counterexample :
    (analysisComplexityBlock 0 0 0).maintainabilityIndex = 60 ∧
    (analysisComplexityBlock 0 0 (1/2)).maintainabilityIndex = 75 ∧
    ¬ ∃ v : ℚ, ∀ r : ℚ, 0 ≤ r → r < 1 →
      (analysisComplexityBlock 0 0 r).maintainabilityIndex = v := by
  refine ⟨by norm_num [analysisComplexityBlock],
          by norm_num [analysisComplexityBlock], ?_⟩
  rintro ⟨v, h⟩
  have h0 := h 0 (by norm_num) (by norm_num)
  have h2 := h (1/2) (by norm_num) (by norm_num)
  simp only [analysisComplexityBlock] at h0 h2
  norm_num at h0 h2
  rw [← h0] at h2
  norm_num at h2

/-- C4 (amended): the reported maintainabilityIndex is `60 + 30·u` for
the uniform random draw `u ∈ [0, 1)` made by the route, independent of
volume, complexity and line counts; it always lies in `[60, 90)` (and so
within `[0, 100]`). -/
theorem claim_C4_random_maintainability (r1 r2 r3 : ℚ)
    (h0 : 0 ≤ r3) (h1 : r3 < 1) :
    (analysisComplexityBlock r1 r2 r3).maintainabilityIndex = 60 + 30 * r3 ∧
    60 ≤ (analysisComplexityBlock r1 r2 r3).maintainabilityIndex ∧
    (analysisComplexityBlock r1 r2 r3).maintainabilityIndex < 90 := by
  refine ⟨by simp [analysisComplexityBlock]; ring, ?_, ?_⟩ <;>
    simp only [analysisComplexityBlock] <;> nlinarith

/-- Witness for C4 (amended) at the draw `u = 1/2`. -/
theorem claim_C4_random_maintainability_witness :
    (0 : ℚ) ≤ 1/2 ∧ (1/2 : ℚ) < 1 ∧
    ((analysisComplexityBlock 0 0 (1/2)).maintainabilityIndex = 60 + 30 * (1/2) ∧
     60 ≤ (analysisComplexityBlock 0 0 (1/2)).maintainabilityIndex ∧
     (analysisComplexityBlock 0 0 (1/2)).maintainabilityIndex < 90) :=
  ⟨by norm_num, by norm_num,
   claim_C4_random_maintainability 0 0 (1/2) (by norm_num) (by norm_num)⟩

/-! ## History persistence (`HistoryService`, src/unnamed/part_012) -/

/-- Entry shape built by `HistoryService.saveAnalysis`; the `data` field
(the full `RepositoryAnalysis` payload) is irrelevant to the capping
behaviour and folded into `summary` here. -/
structure HistoryEntry where
  id : String
  repositoryName : String
  repositoryFullName : String
  repositoryUrl : String
  status : String
  timestamp : String
  duration : Nat
  summary : String
deriving DecidableEq

/-- Embeds the list-level behaviour of `HistoryService.saveAnalysis`:
`history.unshift(historyEntry)` then `history.slice(0, 100)` is written
back — prepend the new entry, keep the first 100. -/
def HistoryService.saveAnalysis (history : List HistoryEntry)
    (entry : HistoryEntry) : List HistoryEntry :=
  (entry :: history).take 100

/-- C7: after every save the persisted history holds at most 100
entries, and saving into a history of exactly 100 (newest-first) entries
prepends the new entry and drops the last — i.e. oldest — one, keeping
the 100 most recent. -/
theorem claim_C7_history_cap :
    (∀ (h : List HistoryEntry) (e : HistoryEntry),
      (HistoryService.saveAnalysis h e).length ≤ 100) ∧
    (∀ (h : List HistoryEntry) (e : HistoryEntry), h.length = 100 →
      HistoryService.saveAnalysis h e = e :: h.dropLast ∧
      (HistoryService.saveAnalysis h e).length = 100) := by
  constructor
  · intro h e
    exact List.length_take_le 100 (e :: h)
  · intro h e hlen
    have hd : h.dropLast = h.take 99 := by
      rw [List.dropLast_eq_take, hlen]
    constructor
    · rw [HistoryService.saveAnalysis, List.take_succ_cons, hd]
    · simp [HistoryService.saveAnalysis, List.length_take, hlen]

/-- Witness for C7 at a concrete full history of 100 identical entries. -/
theorem claim_C7_history_cap_witness :
    (List.replicate 100 (⟨"1", "r", "o/r", "u", "completed", "t0", 0, "s"⟩ : HistoryEntry)).length
        = 100 ∧
    HistoryService.saveAnalysis
        (List.replicate 100 (⟨"1", "r", "o/r", "u", "completed", "t0", 0, "s"⟩ : HistoryEntry))
        ⟨"2", "r2", "o/r2", "u2", "completed", "t1", 1, "s2"⟩ =
      (⟨"2", "r2", "o/r2", "u2", "completed", "t1", 1, "s2"⟩ : HistoryEntry) ::
        (List.replicate 100 (⟨"1", "r", "o/r", "u", "completed", "t0", 0, "s"⟩ : HistoryEntry)).dropLast :=
  ⟨by simp,
   (claim_C7_history_cap.2
     (List.replicate 100 ⟨"1", "r", "o/r", "u", "completed", "t0", 0, "s"⟩)
     ⟨"2", "r2", "o/r2", "u2", "completed", "t1", 1, "s2"⟩ (by simp)).1⟩

/-- Outcome of the `fs.readFile` call in `HistoryService.loadHistory`:
either the file content, or the error code of the thrown error. -/
inductive FileReadResult where
  | success (data : String)
  | failure (code : String)

/-- Embeds `HistoryService.loadHistory` (src/unnamed/part_012): on a read
error the catch returns `[]` (the `ENOENT` branch and the logging branch
both do); a `JSON.parse` throw — modelled by the `parse` argument
returning `none` — lands in the same catch and also returns `[]`. -/
def HistoryService.loadHistory (res : FileReadResult)
    (parse : String → Option (List HistoryEntry)) : List HistoryEntry :=
  match res with
  | .success data =>
    match parse data with
    | some history => history
    | none => []
  | .failure code => if code = "ENOENT" then [] else []

/-- C10: a failing read or a failing parse makes `loadHistory` return the
empty array instead of propagating the error, and the next
`saveAnalysis` therefore writes a history holding only the new entry. -/
theorem claim_C10_loadHistory_fallback :
    (∀ (code : String) (parse : String → Option (List HistoryEntry)),
      HistoryService.loadHistory (.failure code) parse = []) ∧
    (∀ (data : String) (parse : String → Option (List HistoryEntry)),
      parse data = none → HistoryService.loadHistory (.success data) parse = []) ∧
    (∀ (res : FileReadResult) (parse : String → Option (List HistoryEntry))
      (e : HistoryEntry),
      ((∃ code, res = .failure code) ∨
       (∃ data, res = .success data ∧ parse data = none)) →
      HistoryService.saveAnalysis (HistoryService.loadHistory res parse) e = [e]) := by
  refine ⟨fun code parse => ?_, fun data parse hp => ?_, fun res parse e hcase => ?_⟩
  · rw [HistoryService.loadHistory]
    split <;> rfl
  · simp [HistoryService.loadHistory, hp]
  · rcases hcase with ⟨code, rfl⟩ | ⟨data, rfl, hp⟩
    · rw [HistoryService.loadHistory]
      split <;> rfl
    · simp [HistoryService.loadHistory, hp, HistoryService.saveAnalysis]

/-- Witness for C10: a permission-style read error and a malformed-JSON
parse, each at a concrete input. -/
theorem claim_C10_loadHistory_fallback_witness :
    HistoryService.loadHistory (.failure "EACCES") (fun _ => none) = [] ∧
    (fun _ : String => (none : Option (List HistoryEntry))) "not json" = none ∧
    HistoryService.loadHistory (.success "not json") (fun _ => none) = [] ∧
    HistoryService.saveAnalysis
        (HistoryService.loadHistory (.success "not json") (fun _ => none))
        ⟨"1", "r", "o/r", "u", "completed", "t0", 0, "s"⟩ =
      [⟨"1", "r", "o/r", "u", "completed", "t0", 0, "s"⟩] :=
  ⟨claim_C10_loadHistory_fallback.1 "EACCES" (fun _ => none), rfl,
   claim_C10_loadHistory_fallback.2.1 "not json" (fun _ => none) rfl,
   claim_C10_loadHistory_fallback.2.2 (.success "not json") (fun _ => none)
     ⟨"1", "r", "o/r", "u", "completed", "t0", 0, "s"⟩
     (Or.inr ⟨"not json", rfl, rfl⟩)⟩

/-! ## File Collector (`analyzeCodeFiles` / `collectFiles`, analyze.js) -/

/-- Entry of an on-disk directory tree as seen by `fs.readdir` with
`withFileTypes` (file size from `fs.stat`, content from `fs.readFile`). -/
inductive FsEntry where
  | file (name : String) (size : Nat) (content : String)
  | dir (name : String) (entries : List FsEntry)

/-- The `skipDirs` array of `collectFiles`. -/
def skipDirs : List String :=
  [".git", "node_modules", "dist", "build", "out", ".next", "vendor",
   "target", "__pycache__", "venv", ".venv"]

/-- The `codeExtensions` array of `collectFiles`. -/
def codeExtensions : List String :=
  [".js", ".ts", ".jsx", ".tsx", ".py", ".java", ".cpp", ".c", ".cc",
   ".cxx", ".h", ".hpp", ".cs", ".go", ".rs", ".rb", ".php", ".swift",
   ".kt", ".scala", ".r", ".m"]

def joinPath (base name : String) : String :=
  if base = "" then name else base ++ "/" ++ name

/-- Character-level model of `String.toLowerCase`. -/
def lowerString (s : String) : String :=
  String.mk (s.toList.map Char.toLower)

/-- Character-level model of `name.startsWith('.')`. -/
def startsWithDot (name : String) : Bool :=
  ['.'].isPrefixOf name.toList

mutual

/-- Embeds `collectFiles(dirPath, depth)` of `analyzeCodeFiles`
(analyze.js / part_012): return unchanged past depth 10, return
unchanged once more than 5000 files are collected — a check made only on
entry into a directory — then process the directory's entries in order.
`base` is the directory's path relative to the repository root. -/
def collectFiles (entries : List FsEntry) (base : String) (depth : Nat)
    (files : List SourceFile) : List SourceFile :=
  if depth > 10 then files
  else if files.length > 5000 then files
  else collectEntries entries base depth files
termination_by (sizeOf entries, 1)

/-- The `for (const entry of entries)` loop of `collectFiles`: dot-names
and the skip list are skipped, directories recurse with depth + 1, files
are kept when their lower-cased extension is in the allow-list and they
are at most 1 MiB, appended in encounter order. -/
def collectEntries (entries : List FsEntry) (base : String) (depth : Nat)
    (files : List SourceFile) : List SourceFile :=
  match entries with
  | [] => files
  | .dir name sub :: rest =>
    if startsWithDot name || skipDirs.contains name then
      collectEntries rest base depth files
    else
      collectEntries rest base depth
        (collectFiles sub (joinPath base name) (depth + 1) files)
  | .file name size content :: rest =>
    if startsWithDot name || skipDirs.contains name then
      collectEntries rest base depth files
    else if codeExtensions.contains (lowerString (extname name)) then
      if size > 1024 * 1024 then collectEntries rest base depth files
      else collectEntries rest base depth
        (files ++ [⟨joinPath base name, content, size⟩])
    else collectEntries rest base depth files
termination_by (sizeOf entries, 0)

end

theorem collectEntries_cons_qualifying (rest : List FsEntry) (base : String)
    (depth : Nat) (files : List SourceFile) :
    collectEntries (.file "a.js" 10 "x" :: rest) base depth files =
      collectEntries rest base depth (files ++ [⟨joinPath base "a.js", "x", 10⟩]) := by
  rw [collectEntries]
  have h1 : (startsWithDot "a.js" || skipDirs.contains "a.js") = false := by decide
  have h2 : codeExtensions.contains (lowerString (extname "a.js")) = true := by decide
  simp only [h1, h2, Bool.false_eq_true, if_false, if_true]
  norm_num

theorem collectEntries_replicate_file (n : Nat) (base : String) (depth : Nat)
    (files : List SourceFile) :
    collectEntries (List.replicate n (.file "a.js" 10 "x")) base depth files =
      files ++ List.replicate n (⟨joinPath base "a.js", "x", 10⟩ : SourceFile) := by
  induction n generalizing files with
  | zero => simp [collectEntries]
  | succ m ih =>
    rw [List.replicate_succ, collectEntries_cons_qualifying, ih,
        List.append_assoc, List.singleton_append, ← List.replicate_succ]

/-- Counterexample for C3: a single directory holding 6000 qualifying
files yields all 6000 collected files, not 5000 — the `> 5000` guard is
only evaluated when a directory is entered, never inside the per-entry
loop. -/
theorem claim_C3_counterexample :
    (collectFiles (List.replicate 6000 (.file "a.js" 10 "x")) "" 0 []).length = 6000 ∧
    (6000 : Nat) ≠ 5000 := by
  constructor
  · rw [collectFiles, if_neg (by omega), if_neg (by simp),
        collectEntries_replicate_file, List.nil_append, List.length_replicate]
  · decide

/-- C3 (amended): the collector caps only directory descent — once more
than 5000 files have been collected, entering any further directory
returns immediately — but every qualifying file of an already-entered
directory is collected, so the result can exceed 5000: a flat directory
of n qualifying files yields exactly n files for every n, in particular
6000 for the 6000-file tree of the scenario. -/
theorem claim_C3_collector_cap_behaviour :
    (∀ (entries : List FsEntry) (base : String) (depth : Nat)
      (files : List SourceFile), 5000 < files.length →
      collectFiles entries base depth files = files) ∧
    (∀ n : Nat,
      (collectFiles (List.replicate n (.file "a.js" 10 "x")) "" 0 []).length = n) := by
  constructor
  · intro entries base depth files h
    rw [collectFiles]
    by_cases hd : depth > 10
    · rw [if_pos hd]
    · rw [if_neg hd, if_pos (by omega)]
  · intro n
    rw [collectFiles, if_neg (by omega), if_neg (by simp),
        collectEntries_replicate_file, List.nil_append, List.length_replicate]

/-- Witness for C3 (amended): with 5001 files already collected, a
directory holding one more qualifying file is not descended into. -/
theorem claim_C3_collector_cap_behaviour_witness :
    5000 < (List.replicate 5001 (⟨"a.js", "x", 10⟩ : SourceFile)).length ∧
    collectFiles [FsEntry.file "b.js" 10 "y"] "" 0
        (List.replicate 5001 (⟨"a.js", "x", 10⟩ : SourceFile)) =
      List.replicate 5001 (⟨"a.js", "x", 10⟩ : SourceFile) :=
  ⟨by rw [List.length_replicate]; norm_num,
   claim_C3_collector_cap_behaviour.1 [FsEntry.file "b.js" 10 "y"] "" 0
    (List.replicate 5001 ⟨"a.js", "x", 10⟩)
    (by rw [List.length_replicate]; norm_num)⟩

end ExplainMyRepo
